import Mathlib

/-!
Verification development for the `ipu` example program.

The repository is a single linear C++ program (`src/main.cpp`) that parses two
command-line arguments, acquires an IPU device (falling back to a software
`IPUModel`), builds a Poplar graph with three codelets, runs five programs in
sequence and validates the output, timing each phase.  This file gives a
shallow embedding of that program (argument parsing, device acquisition,
tensor/vertex construction, the program list, the data pipeline, validation
and timing structure) and proves the specification claims about it.
-/

deriving instance DecidableEq for Except

namespace IPU

/-! ## The `Program` enum and the `programs` vector (main.cpp lines 32-39, 254-289) -/

/-- The `Program` enum from main.cpp: names for the five program slots. -/
inductive ProgEnum where
  | COPY_TO_IPU
  | ADD_SOMETHING
  | MULTIPLY_SOMETHING_NUM_TIMES
  | SUM
  | COPY_FROM_IPU
deriving DecidableEq

/-- The integer value of each enumerator (C++ enums count from 0 in
declaration order). -/
def ProgEnum.toNat : ProgEnum → Nat
  | .COPY_TO_IPU => 0
  | .ADD_SOMETHING => 1
  | .MULTIPLY_SOMETHING_NUM_TIMES => 2
  | .SUM => 3
  | .COPY_FROM_IPU => 4

/-- Symbolic names for the five `poplar::program::Program` values pushed into
the `programs` vector in main.cpp. -/
inductive ProgramItem where
  /-- `Copy(input_write, tensor0)` — host-to-device copy. -/
  | copy_input
  /-- `Sequence { Repeat(100, Execute(computeSet0)) }`. -/
  | add_sequence
  /-- `Execute(computeSet1)`. -/
  | exec_multiply
  /-- `Execute(computeSet2)`. -/
  | exec_sum
  /-- `Copy(tensor0, output_read)` — device-to-host copy. -/
  | copy_output
deriving DecidableEq

/-- The `programs` vector, built by the five `push_back` calls of main.cpp in
source order (lines 272, 284, 285, 286, 289). -/
def programs : List ProgramItem :=
  (((((([] : List ProgramItem).concat .copy_input).concat .add_sequence).concat
      .exec_multiply).concat .exec_sum).concat .copy_output)

/-- The arguments of the five `engine.run(...)` calls of main.cpp, in source
order (lines 317, 323, 329, 335, 341). -/
def runCalls : List ProgEnum :=
  [.COPY_TO_IPU, .ADD_SOMETHING, .MULTIPLY_SOMETHING_NUM_TIMES, .SUM, .COPY_FROM_IPU]

/-! ## The codelets -/

/-- The `AddSomething` vertex class from `src/AddSomethingCodelet.cpp`:
an `Input<int> something` and an `InOut<int> input_output`. -/
structure AddSomething where
  something : Int
  input_output : Int

/-- `AddSomething::compute`: `*input_output = input_output + something;
return true;`. -/
def AddSomething.compute (v : AddSomething) : AddSomething × Bool :=
  ({ v with input_output := v.input_output + v.something }, true)

/-- Modelled from the spec: `src/MultiplySomethingNumTimesCodelet.cpp` is not
in the repository sources available here; the README describes it as
"Multiply an item in the tensor by a constant a number of times, creating
`num` outputs for a single input, i.e. duplicating the output `num` times",
and main.cpp connects its output to a 20-element slice of `tensor1`.  So the
compute method writes `input * something` into each of the 20 outputs and
returns true. -/
def MultiplySomethingNumTimes.compute (something input : Int) : List Int × Bool :=
  (List.replicate 20 (input * something), true)

/-- Modelled from the spec: `src/SumCodelet.cpp` is not in the repository
sources available here; the README describes it as "Sum the items in a
tensor", and main.cpp connects its input to a 20-element slice of `tensor1`
and its output to `tensor0[i]`.  So the compute method writes the sum of its
inputs to the output and returns true. -/
def Sum.compute (input : List Int) : Int × Bool :=
  (input.sum, true)

/-! ## Tensor and buffer sizes (main.cpp lines 149-186, 257-293) -/

/-- `num_workers_total = num_ipus * num_tiles_per_ipu * num_workers`
(main.cpp line 167). -/
def num_workers_total (num_ipus num_tiles_per_ipu num_workers : Nat) : Nat :=
  num_ipus * num_tiles_per_ipu * num_workers

/-- Shape of `tensor0 = graph.addVariable(INT, {num_workers_total})`. -/
def tensor0_shape (ni nt nw : Nat) : List Nat := [num_workers_total ni nt nw]

/-- Shape of `tensor1 = graph.addVariable(INT, {num_workers_total, 20})`. -/
def tensor1_shape (ni nt nw : Nat) : List Nat := [num_workers_total ni nt nw, 20]

/-- Element count of the host-to-device FIFO `input_write`. -/
def input_write_size (ni nt nw : Nat) : Nat := num_workers_total ni nt nw

/-- Element count of the device-to-host FIFO `output_read`. -/
def output_read_size (ni nt nw : Nat) : Nat := num_workers_total ni nt nw

/-- Element count of the host buffer `buffer_in(num_workers_total)`. -/
def buffer_in_size (ni nt nw : Nat) : Nat := num_workers_total ni nt nw

/-- Element count of the host buffer `buffer_out(num_workers_total)`. -/
def buffer_out_size (ni nt nw : Nat) : Nat := num_workers_total ni nt nw

/-! ## The data pipeline run by the five programs -/

/-- One execution of `computeSet0`: every vertex `i` runs
`AddSomething::compute` with `something = five` on `tensor0[i]`. -/
def addPhase (tensor0 : List Int) : List Int :=
  tensor0.map fun x => ((AddSomething.mk 5 x).compute).1.input_output

/-- The `ADD_SOMETHING` program: `Repeat(100, Execute(computeSet0))`. -/
def addProgram (tensor0 : List Int) : List Int :=
  addPhase^[100] tensor0

/-- The `MULTIPLY_SOMETHING_NUM_TIMES` program: every vertex `i` runs the
multiply codelet with `something = ten` on input `tensor0[i]`, writing the
20-element row `i` of `tensor1`. -/
def multiplyPhase (tensor0 : List Int) : List (List Int) :=
  tensor0.map fun x => (MultiplySomethingNumTimes.compute 10 x).1

/-- The `SUM` program: every vertex `i` sums row `i` of `tensor1` into
`tensor0[i]`. -/
def sumPhase (tensor1 : List (List Int)) : List Int :=
  tensor1.map fun row => (Sum.compute row).1

/-- The whole run of main.cpp from `buffer_in` (zero-filled, line 294) to
`buffer_out`: `COPY_TO_IPU`, `ADD_SOMETHING`, `MULTIPLY_SOMETHING_NUM_TIMES`,
`SUM`, `COPY_FROM_IPU`, executed in that order. -/
def runPrograms (n : Nat) : List Int :=
  let buffer_in : List Int := List.replicate n 0
  let t0 := buffer_in
  let t0 := addProgram t0
  let t1 := multiplyPhase t0
  let t0 := sumPhase t1
  t0

/-- The validation loop of main.cpp (lines 346-350):
`assert(buffer_out[i] == 100000)` for every index of `buffer_out`. -/
def validateOutput (buffer_out : List Int) : Bool :=
  buffer_out.all fun x => x == 100000

/-! ## Timing (main.cpp lines 296-342, 375-382) -/

/-- `timeIt`: steady-clock time points are modelled as integer nanosecond
tick counts; `std::chrono::duration<double, std::milli>(finish - start).count()`
converts the elapsed ticks to milliseconds (modelled exactly over `ℚ`). -/
def timeIt (start finish : ℤ) : ℚ :=
  ((finish - start : ℤ) : ℚ) / 1000000

/-- The timed phases of main.cpp: graph compilation, program load, and the
five program runs. -/
inductive TimedPhase where
  | compileGraph
  | loadProgram
  | runProg (p : ProgEnum)
deriving DecidableEq

/-- The statements of main.cpp relevant to timing, abstracted. -/
inductive MainStep where
  /-- `start = std::chrono::steady_clock::now();` -/
  | recordStart
  /-- the timed work itself -/
  | phase (p : TimedPhase)
  /-- `std::cout << "  Took " << timeIt(start) << " ms\n";` -/
  | reportTime
  /-- `engine.connectStream(...)` (twice, lines 311-312) -/
  | connectStreams
deriving DecidableEq

/-- The sequence of timing-relevant statements of main.cpp lines 296-342, in
source order. -/
def mainTimingTrace : List MainStep :=
  [.recordStart, .phase .compileGraph, .reportTime,
   .recordStart, .phase .loadProgram, .reportTime,
   .connectStreams,
   .recordStart, .phase (.runProg .COPY_TO_IPU), .reportTime,
   .recordStart, .phase (.runProg .ADD_SOMETHING), .reportTime,
   .recordStart, .phase (.runProg .MULTIPLY_SOMETHING_NUM_TIMES), .reportTime,
   .recordStart, .phase (.runProg .SUM), .reportTime,
   .recordStart, .phase (.runProg .COPY_FROM_IPU), .reportTime]

/-- A start-record immediately before a phase and one timeIt report
immediately after it. -/
def phaseTriple (p : TimedPhase) : List MainStep :=
  [.recordStart, .phase p, .reportTime]

/-! ## Command-line argument parsing (main.cpp lines 47-121)

`std::stoi(s, &pos)` skips leading whitespace, accepts an optional sign and a
base-10 digit run, throws `std::invalid_argument` when no digits were
converted and `std::out_of_range` when the value does not fit in `int`, and
otherwise stores the index of the first unconverted character in `pos`. -/

/-- The whitespace characters recognised by `isspace` in the default locale. -/
def isCppSpace (c : Char) : Bool :=
  c = ' ' || c = '\t' || c = '\n' || c = '\x0b' || c = '\x0c' || c = '\r'

/-- Numeric value of a decimal digit character. -/
def digitVal (c : Char) : Nat := c.toNat - '0'.toNat

/-- Value of a run of decimal digits, most significant first. -/
def natOfDigits (ds : List Char) : Nat :=
  ds.foldl (fun acc c => acc * 10 + digitVal c) 0

/-- The two exceptions `std::stoi` can throw. -/
inductive StoiError where
  | invalidArgument
  | outOfRange
deriving DecidableEq

/-- `INT_MIN` for a 32-bit `int`. -/
def intMin : Int := -2147483648

/-- `INT_MAX` for a 32-bit `int`. -/
def intMax : Int := 2147483647

/-- The digit-run stage of `std::stoi`: `signVal` is ±1 from the optional
sign, `consumed` counts the characters already consumed (whitespace and
sign), `r` is the remaining input.  No digits is `invalid_argument`; a value
outside `int` is `out_of_range`; otherwise the value and `pos` are
returned. -/
def stoiDigits (signVal : Int) (consumed : Nat) (r : List Char) :
    Except StoiError (Int × Nat) :=
  let ds := r.takeWhile Char.isDigit
  if ds.isEmpty then .error .invalidArgument
  else
    let v := signVal * (natOfDigits ds : Int)
    if v < intMin || intMax < v then .error .outOfRange
    else .ok (v, consumed + ds.length)

/-- `std::stoi(s, &pos)` on the characters of `s`: either an exception, or
the parsed value together with the index `pos` of the first unconverted
character. -/
def stoi (s : List Char) : Except StoiError (Int × Nat) :=
  let ws := s.takeWhile isCppSpace
  let rest := s.dropWhile isCppSpace
  match rest with
  | '+' :: r => stoiDigits 1 (ws.length + 1) r
  | '-' :: r => stoiDigits (-1) (ws.length + 1) r
  | r => stoiDigits 1 ws.length r

/-- Conversion of the `int` result of `std::stoi` to the `unsigned` variables
`num_ipus` / `num_tiles_per_ipu` (reduction modulo 2^32). -/
def toUnsigned (v : Int) : Nat := (v % 4294967296).toNat

/-- One argument-parsing block of main.cpp: run `std::stoi`, exit(-1) on an
exception, exit(-1) when `pos < s.size()` (trailing characters), assign to
the `unsigned` variable, and exit(-1) when the value is outside
`[lo, hi]`. -/
def parseArg (s : String) (lo hi : Nat) : Except Int Nat :=
  match stoi s.data with
  | .error _ => .error (-1)
  | .ok (v, pos) =>
    if pos < s.data.length then .error (-1)
    else
      let u := toUnsigned v
      if u < lo || hi < u then .error (-1) else .ok u

/-- The whole argument-parsing section of main.cpp (lines 47-121): `argv[1]`
(when present) sets `num_ipus`, checked against `[1, 4]`; `argv[2]` (when
present) sets `num_tiles_per_ipu`, checked against `[1, 1472]`; further
arguments are ignored; the defaults are 1 IPU and 2 tiles per IPU.  The
argument list excludes `argv[0]`. -/
def parseArgs (args : List String) : Except Int (Nat × Nat) :=
  match args with
  | [] => .ok (1, 2)
  | [a] =>
    match parseArg a 1 4 with
    | .error e => .error e
    | .ok ni => .ok (ni, 2)
  | a :: b :: _ =>
    match parseArg a 1 4 with
    | .error e => .error e
    | .ok ni =>
      match parseArg b 1 1472 with
      | .error e => .error e
      | .ok nt => .ok (ni, nt)

/-- An argument is accepted exactly when `std::stoi` succeeds, consumes the
whole string, and the parsed value lies within `[lo, hi]`. -/
def argAccepted (s : String) (lo hi : Nat) : Prop :=
  ∃ v pos, stoi s.data = .ok (v, pos) ∧ pos = s.data.length ∧
    (lo : Int) ≤ v ∧ v ≤ (hi : Int)

/-- The run proceeds past argument parsing exactly when every supplied
argument is accepted with its limits. -/
def argsAccepted : List String → Prop
  | [] => True
  | [a] => argAccepted a 1 4
  | a :: b :: _ => argAccepted a 1 4 ∧ argAccepted b 1 1472

/-! ## Device acquisition (main.cpp lines 123-147, 357-373) -/

/-- A hardware device as seen through `poplar::DeviceManager`: how many IPUs
it offers, and whether `attach()` succeeds on it. -/
structure HwDevice where
  numIpus : Nat
  attach : Bool
deriving DecidableEq

/-- `dm.getDevices(TargetType::IPU, num_ipus)`: the devices offering the
requested number of IPUs. -/
def getDevices (all : List HwDevice) (num_ipus : Nat) : List HwDevice :=
  all.filter fun d => d.numIpus == num_ipus

/-- The attach loop of `setIpuDevice`: return the first device whose
`attach()` succeeds; falling out of the loop reaches the `throw`. -/
def attachLoop : List HwDevice → Except String HwDevice
  | [] => .error "Unable to connect to IPU device!"
  | d :: rest => if d.attach then .ok d else attachLoop rest

/-- `setIpuDevice(num_ipus)` (main.cpp lines 357-373): query the devices with
the requested IPU count, loop over them returning the first that attaches,
and otherwise throw `std::runtime_error("Unable to connect to IPU
device!")`.  (The `size() > 0` guard is kept from the source; with an empty
list the loop body never runs and control falls through to the throw.) -/
def setIpuDevice (all : List HwDevice) (num_ipus : Nat) : Except String HwDevice :=
  let hwDevices := getDevices all num_ipus
  if hwDevices.length > 0 then attachLoop hwDevices
  else .error "Unable to connect to IPU device!"

/-- Which device main.cpp ends up computing on. -/
inductive DeviceKind where
  | hw (d : HwDevice)
  | ipuModel
deriving DecidableEq

/-- The configuration after the try/catch of main.cpp lines 123-147. -/
structure DeviceSetup where
  device : DeviceKind
  num_ipus : Nat
  num_tiles_per_ipu : Nat
  usedFallback : Bool
deriving DecidableEq

/-- The try/catch of main.cpp lines 123-147: on success, use the hardware
device and keep both counts; on any exception, print the fallback notice,
reset `num_ipus` to 1, keep `num_tiles_per_ipu`, and use an `IPUModel`
device. -/
def setupDevice (all : List HwDevice) (num_ipus num_tiles_per_ipu : Nat) : DeviceSetup :=
  match setIpuDevice all num_ipus with
  | .ok d => ⟨.hw d, num_ipus, num_tiles_per_ipu, false⟩
  | .error _ => ⟨.ipuModel, 1, num_tiles_per_ipu, true⟩

/-- The lines printed by the try/catch of main.cpp lines 123-147: the
success notice on the try path, the three-line fallback notice on the catch
path. -/
def setupDeviceOutput (all : List HwDevice) (ni nt : Nat) : List String :=
  let ipu_string := if ni > 1 then "IPUs" else "IPU"
  match setIpuDevice all ni with
  | .ok _ =>
    ["Using " ++ toString ni ++ " " ++ ipu_string ++ " and " ++ toString nt ++
      " tiles per IPU."]
  | .error _ =>
    ["Unable to connect to a device with " ++ toString ni ++ " " ++ ipu_string ++ ".",
     "Using an IPUModel with 1 IPU and " ++ toString nt ++ " tiles per IPU.",
     "Ignore timing statistics."]

/-- main.cpp up to and including device acquisition: argument parsing can
exit(-1); after it, device acquisition always yields a configuration (the
fallback path does not exit). -/
def mainModel (all : List HwDevice) (args : List String) : Except Int DeviceSetup :=
  match parseArgs args with
  | .error e => .error e
  | .ok (ni, nt) => .ok (setupDevice all ni nt)

/-! ## Vertex construction and tile mapping (main.cpp lines 209-252) -/

/-- The tile index computed in the vertex loop:
`std::floor(i / num_workers)` on `unsigned` operands is integer division. -/
def vertexTile (num_workers i : Nat) : Nat := i / num_workers

/-- The vertices added to `computeSet0`, one per loop index
`i < num_workers_total`. -/
def computeSet0 (total : Nat) : Finset Nat := Finset.range total

/-- The vertices added to `computeSet1`, one per loop index. -/
def computeSet1 (total : Nat) : Finset Nat := Finset.range total

/-- The vertices added to `computeSet2`, one per loop index. -/
def computeSet2 (total : Nat) : Finset Nat := Finset.range total

/-- `graph.setTileMapping(vtx0, tile)`. -/
def vtx0Tile (num_workers i : Nat) : Nat := vertexTile num_workers i

/-- `graph.setTileMapping(vtx1, tile)`. -/
def vtx1Tile (num_workers i : Nat) : Nat := vertexTile num_workers i

/-- `graph.setTileMapping(vtx2, tile)`. -/
def vtx2Tile (num_workers i : Nat) : Nat := vertexTile num_workers i

/-! ## Helper lemmas -/

lemma stoiDigits_ok {sv : Int} {c : Nat} {r : List Char} {v : Int} {pos : Nat}
    (h : stoiDigits sv c r = .ok (v, pos)) :
    pos = c + (r.takeWhile Char.isDigit).length ∧ intMin ≤ v ∧ v ≤ intMax := by
  simp only [stoiDigits] at h
  split at h
  · exact absurd h (by simp)
  · split at h
    · exact absurd h (by simp)
    · rename_i hrange
      simp only [Except.ok.injEq, Prod.mk.injEq] at h
      simp only [Bool.or_eq_true, decide_eq_true_eq, not_or, not_lt] at hrange
      obtain ⟨hv, hpos⟩ := h
      exact ⟨hpos.symm, hv ▸ hrange.1, hv ▸ hrange.2⟩

lemma stoi_ok {s : List Char} {v : Int} {pos : Nat} (h : stoi s = .ok (v, pos)) :
    pos ≤ s.length ∧ intMin ≤ v ∧ v ≤ intMax := by
  have hlen : (s.takeWhile isCppSpace).length + (s.dropWhile isCppSpace).length
      = s.length := by
    conv_rhs => rw [← List.takeWhile_append_dropWhile isCppSpace s]
    rw [List.length_append]
  simp only [stoi] at h
  split at h
  · rename_i r heq
    obtain ⟨hpos, hlo, hhi⟩ := stoiDigits_ok h
    have hds : (r.takeWhile Char.isDigit).length ≤ r.length :=
      (List.takeWhile_sublist Char.isDigit).length_le
    have : (s.dropWhile isCppSpace).length = r.length + 1 := by rw [heq]; rfl
    exact ⟨by omega, hlo, hhi⟩
  · rename_i r heq
    obtain ⟨hpos, hlo, hhi⟩ := stoiDigits_ok h
    have hds : (r.takeWhile Char.isDigit).length ≤ r.length :=
      (List.takeWhile_sublist Char.isDigit).length_le
    have : (s.dropWhile isCppSpace).length = r.length + 1 := by rw [heq]; rfl
    exact ⟨by omega, hlo, hhi⟩
  · obtain ⟨hpos, hlo, hhi⟩ := stoiDigits_ok h
    have hds : ((s.dropWhile isCppSpace).takeWhile Char.isDigit).length
        ≤ (s.dropWhile isCppSpace).length :=
      (List.takeWhile_sublist Char.isDigit).length_le
    exact ⟨by omega, hlo, hhi⟩

lemma toUnsigned_range_iff {v : Int} (h1 : intMin ≤ v) (h2 : v ≤ intMax) (lo hi : Nat)
    (hhi : (hi : Int) ≤ intMax) :
    (lo ≤ toUnsigned v ∧ toUnsigned v ≤ hi) ↔ ((lo : Int) ≤ v ∧ v ≤ (hi : Int)) := by
  simp only [toUnsigned, intMin, intMax] at *
  omega

lemma parseArg_error {s : String} {lo hi : Nat} {e : Int}
    (h : parseArg s lo hi = .error e) : e = -1 := by
  simp only [parseArg] at h
  split at h
  · injection h with h; omega
  · split at h
    · injection h with h; omega
    · split at h
      · injection h with h; omega
      · exact absurd h (by simp)

lemma parseArg_ok_iff (s : String) (lo hi : Nat) (hhi : (hi : Int) ≤ intMax) :
    (∃ u, parseArg s lo hi = .ok u) ↔ argAccepted s lo hi := by
  constructor
  · rintro ⟨u, h⟩
    simp only [parseArg] at h
    split at h
    · exact absurd h (by simp)
    · rename_i v pos hst
      obtain ⟨hple, hvlo, hvhi⟩ := stoi_ok hst
      split at h
      · exact absurd h (by simp)
      · rename_i hnlt
        split at h
        · exact absurd h (by simp)
        · rename_i hrange
          simp only [Bool.or_eq_true, decide_eq_true_eq, not_or, not_lt] at hrange
          have hb := (toUnsigned_range_iff hvlo hvhi lo hi hhi).mp ⟨hrange.1, hrange.2⟩
          exact ⟨v, pos, hst, by omega, hb.1, hb.2⟩
  · rintro ⟨v, pos, hst, hposl, hvl, hvh⟩
    obtain ⟨hple, hvlo, hvhi⟩ := stoi_ok hst
    refine ⟨toUnsigned v, ?_⟩
    simp only [parseArg, hst]
    rw [if_neg (by omega)]
    have hb := (toUnsigned_range_iff hvlo hvhi lo hi hhi).mpr ⟨hvl, hvh⟩
    rw [if_neg (by simp only [Bool.or_eq_true, decide_eq_true_eq, not_or, not_lt]; omega)]

lemma attachLoop_ok_iff (l : List HwDevice) (d : HwDevice) :
    attachLoop l = .ok d ↔ l.find? (fun x => x.attach) = some d := by
  induction l with
  | nil => simp [attachLoop, List.find?]
  | cons a rest ih =>
    by_cases ha : a.attach
    · simp [attachLoop, List.find?, ha]
    · simp [attachLoop, List.find?, ha, ih]

lemma attachLoop_error_iff (l : List HwDevice) (e : String) :
    attachLoop l = .error e ↔
      ((∀ d ∈ l, d.attach = false) ∧ e = "Unable to connect to IPU device!") := by
  induction l with
  | nil =>
    constructor
    · intro h
      injection h with h
      exact ⟨fun d hd => absurd hd (List.not_mem_nil d), h.symm⟩
    · intro h
      rw [h.2]
      rfl
  | cons a rest ih =>
    have hunfold : attachLoop (a :: rest)
        = if a.attach then .ok a else attachLoop rest := rfl
    by_cases ha : a.attach
    · rw [hunfold, if_pos ha]
      constructor
      · intro h
        exact absurd h (by simp)
      · rintro ⟨hall, -⟩
        exact absurd (hall a (List.mem_cons_self a rest)) (by simp [ha])
    · have ha' : a.attach = false := by simpa using ha
      rw [hunfold, if_neg ha, ih]
      constructor
      · rintro ⟨hall, he⟩
        refine ⟨fun d hd => ?_, he⟩
        rcases List.mem_cons.mp hd with rfl | hd
        · exact ha'
        · exact hall d hd
      · rintro ⟨hall, he⟩
        exact ⟨fun d hd => hall d (List.mem_cons_of_mem a hd), he⟩

lemma setIpuDevice_ok_iff (all : List HwDevice) (n : Nat) (d : HwDevice) :
    setIpuDevice all n = .ok d
      ↔ (getDevices all n).find? (fun x => x.attach) = some d := by
  simp only [setIpuDevice]
  split
  · exact attachLoop_ok_iff _ d
  · rename_i hlen
    have hnil : getDevices all n = [] := List.length_eq_zero.mp (by omega)
    simp [hnil, List.find?]

lemma setIpuDevice_error_iff (all : List HwDevice) (n : Nat) (e : String) :
    setIpuDevice all n = .error e ↔
      ((∀ d ∈ getDevices all n, d.attach = false) ∧
        e = "Unable to connect to IPU device!") := by
  simp only [setIpuDevice]
  split
  · exact attachLoop_error_iff _ e
  · rename_i hlen
    have hnil : getDevices all n = [] := List.length_eq_zero.mp (by omega)
    rw [hnil]
    constructor
    · intro h
      injection h with h
      exact ⟨fun d hd => absurd hd (List.not_mem_nil d), h.symm⟩
    · intro h
      rw [h.2]

lemma addPhase_replicate (n : Nat) (c : Int) :
    addPhase (List.replicate n c) = List.replicate n (c + 5) := by
  simp [addPhase, AddSomething.compute, List.map_replicate]

lemma addPhase_iterate (k n : Nat) (c : Int) :
    addPhase^[k] (List.replicate n c) = List.replicate n (c + 5 * k) := by
  induction k generalizing c with
  | zero => simp
  | succ k ih =>
    rw [Function.iterate_succ_apply, addPhase_replicate, ih]
    congr 1
    push_cast
    ring

lemma runPrograms_eq (n : Nat) : runPrograms n = List.replicate n 100000 := by
  have h1 : addProgram (List.replicate n (0 : Int)) = List.replicate n 500 := by
    rw [addProgram, addPhase_iterate]
    norm_num
  simp only [runPrograms, h1, multiplyPhase, sumPhase,
    MultiplySomethingNumTimes.compute, Sum.compute, List.map_replicate]
  norm_num [List.sum_replicate, nsmul_eq_mul]

lemma validate_replicate (n : Nat) :
    validateOutput (List.replicate n (100000 : Int)) = true := by
  simp only [validateOutput, List.all_eq_true]
  intro x hx
  rw [List.eq_of_mem_replicate hx]
  rfl

lemma filter_div_card (k nw t : Nat) (h : 0 < nw) (ht : t < k) :
    ((Finset.range (k * nw)).filter (fun i => i / nw = t)).card = nw := by
  have hset : (Finset.range (k * nw)).filter (fun i => i / nw = t)
      = Finset.Ico (t * nw) (t * nw + nw) := by
    ext i
    simp only [Finset.mem_filter, Finset.mem_range, Finset.mem_Ico]
    constructor
    · rintro ⟨hi, hdiv⟩
      have h1 := Nat.div_add_mod i nw
      have h2 : i % nw < nw := Nat.mod_lt _ h
      rw [hdiv] at h1
      rw [Nat.mul_comm nw t] at h1
      set M := t * nw with hM
      omega
    · rintro ⟨h1, h2⟩
      have hsucc : i < (t + 1) * nw := by rw [Nat.succ_mul]; exact h2
      refine ⟨?_, Nat.div_eq_of_lt_le h1 hsucc⟩
      exact lt_of_lt_of_le hsucc (Nat.mul_le_mul_right nw ht)
  rw [hset, Nat.card_Ico]
  omega

/-! ## The claims -/

/-- C1: for every run reaching validation, starting from a zero-filled input
buffer of `num_ipus * num_tiles_per_ipu * num_workers` integers, executing
the five programs in order (copy to device; add-constant 5 repeated 100
times; multiply-by-10 replicated into 20 outputs; sum of the 20 values; copy
back) makes every element of the output buffer equal
100000 = 5 * 100 * 10 * 20, and the validation loop's assert holds at every
index of the output buffer. -/
theorem output_all_100000 : ∀ ni nt nw : Nat,
    runPrograms (num_workers_total ni nt nw)
        = List.replicate (num_workers_total ni nt nw) 100000 ∧
    validateOutput (runPrograms (num_workers_total ni nt nw)) = true ∧
    (100000 : Int) = 5 * 100 * 10 * 20 := by
  intro ni nt nw
  refine ⟨runPrograms_eq _, ?_, by norm_num⟩
  rw [runPrograms_eq]
  exact validate_replicate _

/-- C2: `AddSomething::compute` replaces `input_output` with
`input_output + something` for every pair of integer values, and always
returns true. -/
theorem addSomething_compute_spec : ∀ something input_output : Int,
    ((AddSomething.mk something input_output).compute).1.input_output
        = input_output + something ∧
    ((AddSomething.mk something input_output).compute).1.something = something ∧
    ((AddSomething.mk something input_output).compute).2 = true := by
  intro s io
  exact ⟨rfl, rfl, rfl⟩

/-- C3: whenever `setIpuDevice` throws, main.cpp does not exit: it prints
the fallback notice, resets `num_ipus` to 1 while keeping the requested
`num_tiles_per_ipu`, uses an `IPUModel` device, and (third conjunct) a run
whose arguments parsed continues past device acquisition. -/
theorem device_fallback_spec : ∀ (all : List HwDevice) (ni nt : Nat) (e : String),
    setIpuDevice all ni = .error e →
    setupDevice all ni nt = ⟨.ipuModel, 1, nt, true⟩ ∧
    setupDeviceOutput all ni nt =
      ["Unable to connect to a device with " ++ toString ni ++ " " ++
        (if ni > 1 then "IPUs" else "IPU") ++ ".",
       "Using an IPUModel with 1 IPU and " ++ toString nt ++ " tiles per IPU.",
       "Ignore timing statistics."] ∧
    (∀ args p, parseArgs args = .ok p → (mainModel all args).isOk = true) := by
  intro all ni nt e h
  refine ⟨?_, ?_, ?_⟩
  · simp [setupDevice, h]
  · simp [setupDeviceOutput, h]
  · intro args p hp
    simp [mainModel, hp, Except.isOk, Except.toBool]

theorem device_fallback_witness :
    setupDevice [] 2 7 = ⟨.ipuModel, 1, 7, true⟩ ∧
    setupDeviceOutput [] 2 7 =
      ["Unable to connect to a device with " ++ toString 2 ++ " " ++
        (if 2 > 1 then "IPUs" else "IPU") ++ ".",
       "Using an IPUModel with 1 IPU and " ++ toString 7 ++ " tiles per IPU.",
       "Ignore timing statistics."] :=
  ⟨(device_fallback_spec [] 2 7 "Unable to connect to IPU device!" rfl).1,
   (device_fallback_spec [] 2 7 "Unable to connect to IPU device!" rfl).2.1⟩

/-- C4: every malformed first argument (no parse, trailing characters, out
of `std::stoi` range, or value outside [1, 4]) makes the program exit with
status -1 before any device work, likewise a second argument outside
[1, 1472]; a run proceeds past argument parsing exactly when each supplied
argument parses fully and lies within its limit. -/
theorem arg_parsing_spec :
    (∀ args c, parseArgs args = .error c → c = -1) ∧
    (∀ (all : List HwDevice) args c, parseArgs args = .error c →
      mainModel all args = .error (-1)) ∧
    (∀ args, (parseArgs args).isOk = true ↔ argsAccepted args) := by
  have herr : ∀ args c, parseArgs args = .error c → c = -1 := by
    intro args c h
    match args with
    | [] => exact absurd h (by simp [parseArgs])
    | [a] =>
      simp only [parseArgs] at h
      split at h
      · rename_i e he
        injection h with h
        rw [← h]
        exact parseArg_error he
      · exact absurd h (by simp)
    | a :: b :: rest =>
      simp only [parseArgs] at h
      split at h
      · rename_i e he
        injection h with h
        rw [← h]
        exact parseArg_error he
      · split at h
        · rename_i e he
          injection h with h
          rw [← h]
          exact parseArg_error he
        · exact absurd h (by simp)
  refine ⟨herr, ?_, ?_⟩
  · intro all args c h
    have hc := herr args c h
    simp only [mainModel, h]
    rw [hc]
  · intro args
    match args with
    | [] => simp [parseArgs, argsAccepted, Except.isOk, Except.toBool]
    | [a] =>
      have h4 : ((4 : Nat) : Int) ≤ intMax := by norm_num [intMax]
      rw [show argsAccepted [a] = argAccepted a 1 4 from rfl,
        ← parseArg_ok_iff a 1 4 h4]
      simp only [parseArgs]
      constructor
      · intro h
        split at h
        · exact absurd h (by simp [Except.isOk, Except.toBool])
        · rename_i u hu
          exact ⟨u, hu⟩
      · rintro ⟨u, hu⟩
        simp [hu, Except.isOk, Except.toBool]
    | a :: b :: rest =>
      have h4 : ((4 : Nat) : Int) ≤ intMax := by norm_num [intMax]
      have h1472 : ((1472 : Nat) : Int) ≤ intMax := by norm_num [intMax]
      rw [show argsAccepted (a :: b :: rest)
          = (argAccepted a 1 4 ∧ argAccepted b 1 1472) from rfl,
        ← parseArg_ok_iff a 1 4 h4, ← parseArg_ok_iff b 1 1472 h1472]
      simp only [parseArgs]
      constructor
      · intro h
        split at h
        · exact absurd h (by simp [Except.isOk, Except.toBool])
        · rename_i u hu
          split at h
          · exact absurd h (by simp [Except.isOk, Except.toBool])
          · rename_i w hw
            exact ⟨⟨u, hu⟩, ⟨w, hw⟩⟩
      · rintro ⟨⟨u, hu⟩, ⟨w, hw⟩⟩
        simp [hu, hw, Except.isOk, Except.toBool]

theorem arg_parsing_witness :
    (parseArgs ["2", "100"]).isOk = true ∧ mainModel [] ["5"] = .error (-1) :=
  ⟨(arg_parsing_spec.2.2 ["2", "100"]).mpr
      ⟨⟨2, 1, by decide⟩, ⟨100, 3, by decide⟩⟩,
   arg_parsing_spec.2.1 [] ["5"] (-1) (by decide)⟩

/-- C5: the `programs` vector indices match the `Program` enum values, and
at run time the host-to-device copy runs first, the device-to-host copy
last, with the add, multiply and sum programs in between in that order. -/
theorem program_order_spec :
    programs.get? (ProgEnum.toNat .COPY_TO_IPU) = some .copy_input ∧
    programs.get? (ProgEnum.toNat .ADD_SOMETHING) = some .add_sequence ∧
    programs.get? (ProgEnum.toNat .MULTIPLY_SOMETHING_NUM_TIMES)
        = some .exec_multiply ∧
    programs.get? (ProgEnum.toNat .SUM) = some .exec_sum ∧
    programs.get? (ProgEnum.toNat .COPY_FROM_IPU) = some .copy_output ∧
    programs.length = 5 ∧
    runCalls = [.COPY_TO_IPU, .ADD_SOMETHING, .MULTIPLY_SOMETHING_NUM_TIMES,
      .SUM, .COPY_FROM_IPU] ∧
    runCalls.head? = some .COPY_TO_IPU ∧
    runCalls.getLast? = some .COPY_FROM_IPU := by
  decide

/-- C6: `tensor0`, both FIFOs and both host buffers all have exactly
`num_ipus * num_tiles_per_ipu * num_workers` elements, one per worker
thread. -/
theorem tensor_sizes_spec : ∀ ni nt nw : Nat,
    tensor0_shape ni nt nw = [ni * nt * nw] ∧
    input_write_size ni nt nw = ni * nt * nw ∧
    output_read_size ni nt nw = ni * nt * nw ∧
    buffer_in_size ni nt nw = ni * nt * nw ∧
    buffer_out_size ni nt nw = ni * nt * nw := by
  intro ni nt nw
  exact ⟨rfl, rfl, rfl, rfl, rfl⟩

/-- C7: every loop index `i < num_workers_total` adds one vertex to each of
the three compute sets, all three mapped to tile `i / num_workers`, so each
used tile receives exactly `num_workers` vertices per compute set. -/
theorem tile_vertex_count_spec : ∀ ni nt nw t : Nat, 0 < nw → t < ni * nt →
    ((computeSet0 (num_workers_total ni nt nw)).filter
        (fun i => vtx0Tile nw i = t)).card = nw ∧
    ((computeSet1 (num_workers_total ni nt nw)).filter
        (fun i => vtx1Tile nw i = t)).card = nw ∧
    ((computeSet2 (num_workers_total ni nt nw)).filter
        (fun i => vtx2Tile nw i = t)).card = nw ∧
    (∀ i, vtx0Tile nw i = vertexTile nw i ∧ vtx1Tile nw i = vertexTile nw i ∧
      vtx2Tile nw i = vertexTile nw i) ∧
    (∀ i, i ∈ computeSet0 (num_workers_total ni nt nw)
        ↔ i < num_workers_total ni nt nw) := by
  intro ni nt nw t hnw ht
  have hcard := filter_div_card (ni * nt) nw t hnw ht
  have hmt : num_workers_total ni nt nw = ni * nt * nw := rfl
  refine ⟨?_, ?_, ?_, fun i => ⟨rfl, rfl, rfl⟩, fun i => Finset.mem_range⟩
  · exact hcard
  · exact hcard
  · exact hcard

theorem tile_vertex_count_witness :
    ((computeSet0 (num_workers_total 1 2 6)).filter
        (fun i => vtx0Tile 6 i = 1)).card = 6 :=
  (tile_vertex_count_spec 1 2 6 1 (by decide) (by decide)).1

/-- C8: `timeIt` returns the elapsed steady-clock time since `start`
expressed in milliseconds (time points as nanosecond ticks, reals as `ℚ`),
and main.cpp invokes it once immediately after each timed phase — graph
compilation, program load, and each of the five program runs — with a start
point recorded immediately before that phase. -/
theorem timing_spec :
    (∀ s f : ℤ, timeIt s f * 1000000 = ((f - s : ℤ) : ℚ)) ∧
    mainTimingTrace =
      phaseTriple .compileGraph ++ phaseTriple .loadProgram ++
        [.connectStreams] ++
        (runCalls.map fun e => phaseTriple (.runProg e)).flatten := by
  constructor
  · intro s f
    rw [timeIt, div_mul_cancel₀]
    norm_num
  · decide

/-- C9: `setIpuDevice` returns the first device offering the requested IPU
count that attaches; it throws `runtime_error("Unable to connect to IPU
device!")` exactly when no such device exists or none attaches; it never
returns without a successful attach. -/
theorem setIpuDevice_spec : ∀ (all : List HwDevice) (n : Nat),
    (∀ d, setIpuDevice all n = .ok d →
      (getDevices all n).find? (fun x => x.attach) = some d ∧ d.attach = true) ∧
    ((∃ e, setIpuDevice all n = .error e)
        ↔ ∀ d ∈ getDevices all n, d.attach = false) ∧
    (∀ e, setIpuDevice all n = .error e
        → e = "Unable to connect to IPU device!") := by
  intro all n
  refine ⟨?_, ?_, ?_⟩
  · intro d h
    have hf := (setIpuDevice_ok_iff all n d).mp h
    exact ⟨hf, List.find?_some hf⟩
  · constructor
    · rintro ⟨e, he⟩
      exact ((setIpuDevice_error_iff all n e).mp he).1
    · intro hall
      exact ⟨"Unable to connect to IPU device!",
        (setIpuDevice_error_iff all n _).mpr ⟨hall, rfl⟩⟩
  · intro e he
    exact ((setIpuDevice_error_iff all n e).mp he).2

theorem setIpuDevice_witness :
    (getDevices [⟨1, false⟩, ⟨1, true⟩] 1).find? (fun x => x.attach)
        = some ⟨1, true⟩ ∧
    HwDevice.attach ⟨1, true⟩ = true :=
  (setIpuDevice_spec [⟨1, false⟩, ⟨1, true⟩] 1).1 ⟨1, true⟩ (by decide)

/-- C10: with no command-line arguments the defaults of 1 IPU and 2 tiles
per IPU are used unchanged; a single argument overrides only the IPU count
while the tile count stays at its default of 2. -/
theorem default_args_spec :
    parseArgs [] = .ok (1, 2) ∧
    ∀ a n, parseArg a 1 4 = .ok n → parseArgs [a] = .ok (n, 2) := by
  refine ⟨rfl, ?_⟩
  intro a n h
  simp [parseArgs, h]

theorem default_args_witness : parseArgs ["3"] = .ok (3, 2) :=
  default_args_spec.2 "3" 3 (by decide)

end IPU
